import Mathlib

/-!
# Verification of the sector_game core

Shallow embedding of the core game logic of the `sector_game` repository
(`GameLogicClassesAndHandlers.py` and `ScreenClasses.py`): the player path,
obstacles (sectors of a ring), the obstacle handler's slot map, and the
game-session restart / difficulty-change / reap-and-score operations.

Python floats are modelled as real numbers; Python's `%` on floats and
`int()` truncation are modelled explicitly.  Obstacle names, which in the
source are Python strings produced by `str` applied to a non-negative
integer (and read back with `int`), are modelled directly as naturals,
since `str`/`int` is a bijection on the canonical representations the
handler produces.  Python dicts (insertion-ordered, unique keys) are
modelled as association lists whose key list is `Nodup`.
-/

noncomputable section

open Real

/-- Python `a % b` on floats: `a - b * floor (a / b)`. -/
def pymod (a b : ℝ) : ℝ := a - b * ⌊a / b⌋

/-- Python `int()` applied to a float: truncation toward zero. -/
def truncToZero (x : ℝ) : ℤ := if 0 ≤ x then ⌊x⌋ else ⌈x⌉

/-- Method `Player.__polar_to_cartesian` of `GameLogicClassesAndHandlers.py`:
`(r, θ) ↦ (r cos θ, r sin θ)`. -/
def polar_to_cartesian (c : ℝ × ℝ) : ℝ × ℝ :=
  (c.1 * Real.cos c.2, c.1 * Real.sin c.2)

/-- The mutable state of a `Player` object (`GameLogicClassesAndHandlers.py`,
class `Player`). -/
structure Player where
  radius : ℝ
  player_radius : ℝ
  centre : ℝ × ℝ
  is_alive : Bool
  curve_nr : ℝ
  path_deviation : ℝ
  player_path_resolution : ℕ
  player_path : List (ℝ × ℝ)
  player_position : ℝ × ℝ
  player_speed : ℝ

/-- The position computed by `Player.move(N)`: `N` is reduced modulo
`player_path_resolution`, turned into an angle `phi`, the radius is
`radius + sin(curve_nr * phi) * path_deviation`, and the polar point is
translated by `centre`. -/
def Player.posAt (p : Player) (N : ℝ) : ℝ × ℝ :=
  let Nm := pymod N (p.player_path_resolution : ℝ)
  let phi := 2 * Real.pi * (Nm / (p.player_path_resolution : ℝ))
  let r := p.radius + Real.sin (p.curve_nr * phi) * p.path_deviation
  let pos := polar_to_cartesian (r, phi)
  (pos.1 + p.centre.1, pos.2 + p.centre.2)

/-- Method `Player.move(N)`: updates `player_position` to `posAt N` (the Python
method also returns this position). -/
def Player.move (p : Player) (N : ℝ) : Player :=
  { p with player_position := p.posAt N }

/-- Method `Player.generate_player_path`: builds `[move(i) for i in range(resolution)]`.
Each `move(i)` call also overwrites `player_position`, so after generation the
position is the sample at index `resolution - 1` (when the resolution is
positive; with resolution `0` no `move` call happens). -/
def Player.generate_player_path (p : Player) : Player :=
  let path := (List.range p.player_path_resolution).map (fun i => p.posAt (i : ℝ))
  let pos := match p.player_path_resolution with
    | 0 => p.player_position
    | Nat.succ n => p.posAt (n : ℝ)
  { p with player_path := path, player_position := pos }

/-- The mutable state of an `Obstacle` object (`GameLogicClassesAndHandlers.py`,
class `Obstacle`). -/
structure Obstacle where
  inner_radius : ℝ
  outer_radius : ℝ
  start_angle : ℝ
  angle : ℝ
  centre : ℝ × ℝ
  speed : ℝ
  is_alive : Bool

/-- Constructor `Obstacle.__init__(start_angle, angle, speed)`: both radii start at the
circumscribing radius `sqrt(centre_x² + centre_y²)` of the viewport (the
global `centre` from the settings module is passed explicitly here), with
the outer radius 10 units larger. -/
def Obstacle.init (centre : ℝ × ℝ) (start_angle angle speed : ℝ) : Obstacle :=
  { inner_radius := Real.sqrt (centre.1 ^ 2 + centre.2 ^ 2)
    outer_radius := Real.sqrt (centre.1 ^ 2 + centre.2 ^ 2) + 10
    start_angle := start_angle
    angle := angle
    centre := centre
    speed := speed
    is_alive := true }

/-- Method `Obstacle.create_polygon_points(radius)`: for `n in range(0, int(angle))`,
the point `(centre_x + int(radius * cos(n π/180)), centre_y + int(radius * sin(n π/180)))`
where `int` truncates toward zero. -/
def Obstacle.create_polygon_points (o : Obstacle) (radius : ℝ) : List (ℝ × ℝ) :=
  (List.range (truncToZero o.angle).toNat).map (fun n : ℕ =>
    (o.centre.1 + ((truncToZero (radius * Real.cos ((n : ℝ) * Real.pi / 180)) : ℤ) : ℝ),
     o.centre.2 + ((truncToZero (radius * Real.sin ((n : ℝ) * Real.pi / 180)) : ℤ) : ℝ)))

/-- Method `Obstacle.create_sector_of_the_ring_points`: outer arc points, the inner
arc reversed, closed with `outer_points[0]`.  The Python indexing
`outer_points[0]` raises `IndexError` on an empty outer arc, modelled with
`Option`. -/
def Obstacle.create_sector_of_the_ring_points (o : Obstacle) : Option (List (ℝ × ℝ)) :=
  let outer_points := o.create_polygon_points o.outer_radius
  let inner_points := (o.create_polygon_points o.inner_radius).reverse
  match outer_points.head? with
  | none => none
  | some p0 => some (outer_points ++ inner_points ++ [p0])

/-- Method `Obstacle.move_obstacle(dt)`: both radii shrink by `speed * dt`. -/
def Obstacle.move_obstacle (o : Obstacle) (dt : ℝ) : Obstacle :=
  { o with inner_radius := o.inner_radius - o.speed * dt
           outer_radius := o.outer_radius - o.speed * dt }

/-- Method `Obstacle.update_alive_status`: sets `is_alive` to false when
`inner_radius < 0`, otherwise leaves the obstacle unchanged. -/
def Obstacle.update_alive_status (o : Obstacle) : Obstacle :=
  if o.inner_radius < 0 then { o with is_alive := false } else o

/-- One simulation step of an obstacle as driven by the per-frame loop:
`move_obstacle(dt)` followed by the `update_alive_status` check performed
in `draw_obstacle`. -/
def Obstacle.step (o : Obstacle) (dt : ℝ) : Obstacle :=
  (o.move_obstacle dt).update_alive_status

/-- The mutable state of an `ObstacleHandler` object
(`GameLogicClassesAndHandlers.py`, class `ObstacleHandler`).  The `obstacles`
dict is an insertion-ordered association list from slot ids to obstacles. -/
structure ObstacleHandler where
  obstacles : List (ℕ × Obstacle)
  min_angle : ℝ
  max_angle : ℝ
  last_created_obstacle : Option ℕ
  distance_between_obstacles : ℝ

/-- Method `ObstacleHandler.delete_obstacle(name)`: `dict.pop` removes the entry
with the given key. -/
def ObstacleHandler.delete_obstacle (h : ObstacleHandler) (name : ℕ) : ObstacleHandler :=
  { h with obstacles := h.obstacles.eraseP (fun e => e.1 == name) }

/-- Method `ObstacleHandler.create_available_name`: sorts the integer keys, zips
them with `range(len(obstacles))`, collects the positions where the two
disagree; the minimum such position if any, `0` for an empty dict, and the
dict size otherwise.  (The Python function returns `str` of this number.) -/
def ObstacleHandler.create_available_name (h : ObstacleHandler) : ℕ :=
  let current_indexes := List.insertionSort (· ≤ ·) (h.obstacles.map Prod.fst)
  let all_indexes := List.range h.obstacles.length
  let zipped := current_indexes.zip all_indexes
  let unused_indexes := (zipped.filter (fun e => e.1 != e.2)).map Prod.snd
  match unused_indexes.min? with
  | some m => m
  | none => if h.obstacles.isEmpty then 0 else h.obstacles.length

/-- Method `ObstacleHandler.delete_dead_obstacles`: collects the names of the dead
obstacles, pops each of them, and returns whether any were collected. -/
def ObstacleHandler.delete_dead_obstacles (h : ObstacleHandler) : ObstacleHandler × Bool :=
  let to_delete := (h.obstacles.filter (fun e => !e.2.is_alive)).map Prod.fst
  let cleaned := to_delete.foldl (fun acc name => acc.delete_obstacle name) h
  (cleaned, !to_delete.isEmpty)

/-- The state of a `Game` screen (`ScreenClasses.py`, class `Game`) touched
by the operations below. -/
structure Game where
  player : Player
  obstacle_handler : ObstacleHandler
  path_perc : ℝ
  initial_obstacle : Bool
  score : ℕ
  game_end : Bool

/-- A difficulty settings dictionary as produced by the `DifficultyHandler`
properties (`GameLogicClassesAndHandlers.py`). -/
structure GameSettings where
  radius : ℝ
  player_radius : ℝ
  curve_nr : ℝ
  path_deviation : ℝ
  player_speed : ℝ
  min_angle : ℝ
  max_angle : ℝ
  distance_between_obstacles : ℝ

/-- Preset `DifficultyHandler.easy_difficulty`. -/
def easy_difficulty : GameSettings :=
  { radius := 100, player_radius := 15, curve_nr := 0, path_deviation := 0,
    player_speed := 400, min_angle := 45, max_angle := 270,
    distance_between_obstacles := 200 }

/-- Preset `DifficultyHandler.medium_difficulty`. -/
def medium_difficulty : GameSettings :=
  { radius := 125, player_radius := 15, curve_nr := 6, path_deviation := 20,
    player_speed := 500, min_angle := 90, max_angle := 300,
    distance_between_obstacles := 150 }

/-- Preset `DifficultyHandler.hard_difficulty`. -/
def hard_difficulty : GameSettings :=
  { radius := 75, player_radius := 15, curve_nr := 8, path_deviation := 10,
    player_speed := 1000, min_angle := 180, max_angle := 320,
    distance_between_obstacles := 100 }

/-- Preset `DifficultyHandler.insane_difficulty`. -/
def insane_difficulty : GameSettings :=
  { radius := 150, player_radius := 10, curve_nr := 30, path_deviation := 20,
    player_speed := 1500, min_angle := 200, max_angle := 320,
    distance_between_obstacles := 90 }

/-- Method `Game.restart_game` (`ScreenClasses.py`): revives the player, moves it to
`move(0)`, clears the obstacle dict and the last-created marker, and resets
`initial_obstacle`, `path_perc`, `score` and `game_end`. -/
def Game.restart_game (g : Game) : Game :=
  let p := ({ g.player with is_alive := true }).move 0
  { g with
      player := p
      obstacle_handler := { g.obstacle_handler with
                              obstacles := []
                              last_created_obstacle := none }
      initial_obstacle := false
      path_perc := 0
      score := 0
      game_end := false }

/-- Method `Game.change_game_settings(settings_dict)` (`ScreenClasses.py`):
`restart_game`, then overwrite the player and obstacle-handler parameters
from the settings dict, then regenerate the player path (which, in the
source, also overwrites `player_position` through the `move` calls inside
`generate_player_path`). -/
def Game.change_game_settings (g : Game) (s : GameSettings) : Game :=
  let g1 := g.restart_game
  let p := { g1.player with
               radius := s.radius
               player_radius := s.player_radius
               curve_nr := s.curve_nr
               path_deviation := s.path_deviation
               player_speed := s.player_speed }
  let oh := { g1.obstacle_handler with
                min_angle := s.min_angle
                max_angle := s.max_angle
                distance_between_obstacles := s.distance_between_obstacles }
  { g1 with player := p.generate_player_path, obstacle_handler := oh }

/-- The reap-and-score fragment of `Game.handle_screen` (`ScreenClasses.py`,
lines 196-198): `if self.obstacle_handler.delete_dead_obstacles(): self.score += 1`. -/
def Game.reap_dead_and_score (g : Game) : Game :=
  let res := g.obstacle_handler.delete_dead_obstacles
  { g with obstacle_handler := res.1
           score := if res.2 then g.score + 1 else g.score }

/-! ## Concrete states used by witnesses and counterexamples -/

/-- A concrete player (easy-difficulty parameters, default resolution). -/
def witnessPlayer : Player :=
  { radius := 100, player_radius := 15, centre := (640, 360), is_alive := true,
    curve_nr := 0, path_deviation := 0, player_path_resolution := 1000,
    player_path := [], player_position := (0, 0), player_speed := 400 }

/-- A dead obstacle (inner radius already negative, flag cleared). -/
def deadObstacle : Obstacle :=
  { inner_radius := -5, outer_radius := 5, start_angle := 0, angle := 90,
    centre := (640, 360), speed := 100, is_alive := false }

/-- A live obstacle. -/
def liveObstacle : Obstacle :=
  { inner_radius := 300, outer_radius := 310, start_angle := 10, angle := 120,
    centre := (640, 360), speed := 100, is_alive := true }

/-- A handler holding one dead and one live obstacle. -/
def handlerC5 : ObstacleHandler :=
  { obstacles := [(0, deadObstacle), (1, liveObstacle)], min_angle := 45,
    max_angle := 270, last_created_obstacle := some 1,
    distance_between_obstacles := 200 }

/-- A handler whose slot map has keys `{0, 1, 3}` (a gap at 2). -/
def handlerC7 : ObstacleHandler :=
  { obstacles := [(0, liveObstacle), (1, liveObstacle), (3, liveObstacle)],
    min_angle := 45, max_angle := 270, last_created_obstacle := some 3,
    distance_between_obstacles := 200 }

/-- An obstacle with a 90-degree sector, centred at the origin. -/
def obstWide : Obstacle :=
  { inner_radius := 0, outer_radius := 10, start_angle := 0, angle := 90,
    centre := (0, 0), speed := 100, is_alive := true }

/-- An obstacle whose sector angle is below one degree, so its arcs have no
sample points. -/
def obstTiny : Obstacle :=
  { inner_radius := 0, outer_radius := 10, start_angle := 0, angle := 1 / 2,
    centre := (0, 0), speed := 100, is_alive := true }

/-- A small-resolution player used to examine the post-state of a
difficulty change. -/
def playerC4 : Player :=
  { radius := 1, player_radius := 1, centre := (0, 0), is_alive := true,
    curve_nr := 0, path_deviation := 0, player_path_resolution := 4,
    player_path := [], player_position := (0, 0), player_speed := 1 }

/-- An empty obstacle handler. -/
def emptyHandler : ObstacleHandler :=
  { obstacles := [], min_angle := 45, max_angle := 270,
    last_created_obstacle := none, distance_between_obstacles := 400 }

/-- A game about to undergo a difficulty change. -/
def gameC4 : Game :=
  { player := playerC4, obstacle_handler := emptyHandler, path_perc := 0,
    initial_obstacle := false, score := 0, game_end := false }

/-- A game whose handler holds two dead obstacles, used to examine the
scoring rule when several obstacles die in the same frame. -/
def gameC6 : Game :=
  { player := witnessPlayer
    obstacle_handler :=
      { obstacles := [(0, deadObstacle), (1, deadObstacle)], min_angle := 45,
        max_angle := 270, last_created_obstacle := some 1,
        distance_between_obstacles := 200 }
    path_perc := 0, initial_obstacle := true, score := 0, game_end := false }

/-! ## Helper lemmas -/

/-- Adding the (positive) modulus leaves `pymod` unchanged. -/
theorem pymod_add_self (a : ℝ) {b : ℝ} (hb : 0 < b) : pymod (a + b) b = pymod a b := by
  unfold pymod
  have hb0 : b ≠ 0 := ne_of_gt hb
  have : (a + b) / b = a / b + 1 := by field_simp
  rw [this, Int.floor_add_one]
  push_cast
  ring

/-! ## C10: ring thickness invariant -/

/-- C10: for every Obstacle, `outer_radius - inner_radius` equals 10 at
construction, and every call to `move_obstacle(dt)` preserves the difference
`outer_radius - inner_radius`, so the ring thickness is constant for the
obstacle's whole lifetime. -/
theorem obstacle_ring_thickness_invariant :
    (∀ (c : ℝ × ℝ) (sa a s : ℝ),
      (Obstacle.init c sa a s).outer_radius - (Obstacle.init c sa a s).inner_radius = 10) ∧
    (∀ (o : Obstacle) (dt : ℝ),
      (o.move_obstacle dt).outer_radius - (o.move_obstacle dt).inner_radius =
        o.outer_radius - o.inner_radius) := by
  constructor
  · intro c sa a s
    simp [Obstacle.init]
  · intro o dt
    simp [Obstacle.move_obstacle]

/-! ## C2: path periodicity -/

/-- C2: for every Player (with positive path resolution, as in every
constructed player) and every real `k`, `move(k + player_path_resolution)`
returns the same position as `move(k)`: the position function is periodic
with period `player_path_resolution`. -/
theorem player_move_periodic (p : Player) (k : ℝ)
    (h : 0 < p.player_path_resolution) :
    (p.move (k + (p.player_path_resolution : ℝ))).player_position =
      (p.move k).player_position := by
  have hres : (0 : ℝ) < (p.player_path_resolution : ℝ) := by exact_mod_cast h
  simp only [Player.move, Player.posAt]
  rw [pymod_add_self k hres]

/-! ## C3: obstacle motion and one-way liveness -/

/-- The check `update_alive_status` does not change the radii or the speed. -/
theorem update_alive_status_fields (o : Obstacle) :
    (o.update_alive_status).inner_radius = o.inner_radius ∧
    (o.update_alive_status).outer_radius = o.outer_radius ∧
    (o.update_alive_status).speed = o.speed := by
  unfold Obstacle.update_alive_status
  split <;> simp

/-- Each `step` (move then alive-status check) shifts both radii by `speed * dt`
and keeps the speed. -/
theorem step_fields (o : Obstacle) (dt : ℝ) :
    (o.step dt).inner_radius = o.inner_radius - o.speed * dt ∧
    (o.step dt).outer_radius = o.outer_radius - o.speed * dt ∧
    (o.step dt).speed = o.speed := by
  unfold Obstacle.step
  rcases update_alive_status_fields ((o.move_obstacle dt)) with ⟨h1, h2, h3⟩
  rw [h1, h2, h3]
  simp [Obstacle.move_obstacle]

/-- A dead obstacle stays dead under `step`. -/
theorem step_dead_stays_dead (o : Obstacle) (dt : ℝ)
    (h : o.is_alive = false) : (o.step dt).is_alive = false := by
  unfold Obstacle.step Obstacle.update_alive_status
  split <;> simp [Obstacle.move_obstacle, h]

/-- A dead obstacle stays dead along any sequence of steps. -/
theorem foldl_step_dead_stays_dead (dts : List ℝ) :
    ∀ o : Obstacle, o.is_alive = false →
      (dts.foldl Obstacle.step o).is_alive = false := by
  induction dts with
  | nil => intro o h; simpa using h
  | cons dt rest ih =>
      intro o h
      simpa using ih (o.step dt) (step_dead_stays_dead o dt h)

/-- Radii and speed after a sequence of steps. -/
theorem foldl_step_fields (dts : List ℝ) :
    ∀ o : Obstacle,
      (dts.foldl Obstacle.step o).inner_radius = o.inner_radius - o.speed * dts.sum ∧
      (dts.foldl Obstacle.step o).outer_radius = o.outer_radius - o.speed * dts.sum ∧
      (dts.foldl Obstacle.step o).speed = o.speed := by
  induction dts with
  | nil => intro o; simp
  | cons dt rest ih =>
      intro o
      rcases ih (o.step dt) with ⟨h1, h2, h3⟩
      rcases step_fields o dt with ⟨g1, g2, g3⟩
      refine ⟨?_, ?_, ?_⟩ <;>
        simp only [List.foldl_cons, h1, h2, h3, g1, g2, g3, List.sum_cons] <;> ring

/-- Liveness after a sequence of non-negative steps of an obstacle with
non-negative speed that starts alive with non-negative inner radius:
the final alive flag is false exactly when the final inner radius is
negative. -/
theorem foldl_step_alive_iff (dts : List ℝ) :
    ∀ o : Obstacle, (∀ dt ∈ dts, 0 ≤ dt) → 0 ≤ o.speed →
      o.is_alive = true → 0 ≤ o.inner_radius →
      ((dts.foldl Obstacle.step o).is_alive = false ↔
        (dts.foldl Obstacle.step o).inner_radius < 0) := by
  induction dts with
  | nil =>
      intro o _ _ halive hinner
      simp [halive, not_lt.mpr hinner]
  | cons dt rest ih =>
      intro o hdts hspeed halive hinner
      have hdt0 : 0 ≤ dt := hdts dt (by simp)
      have hrest : ∀ x ∈ rest, 0 ≤ x := fun x hx => hdts x (by simp [hx])
      rcases step_fields o dt with ⟨g1, _, g3⟩
      by_cases hneg : o.inner_radius - o.speed * dt < 0
      · -- the obstacle dies at this step and stays dead, and the inner
        -- radius only keeps shrinking
        have hdead : (o.step dt).is_alive = false := by
          unfold Obstacle.step Obstacle.update_alive_status
          split <;> simp_all [Obstacle.move_obstacle]
        have hfin := foldl_step_dead_stays_dead rest (o.step dt) hdead
        rcases foldl_step_fields rest (o.step dt) with ⟨f1, _, _⟩
        have hsum : 0 ≤ rest.sum := List.sum_nonneg hrest
        have : (rest.foldl Obstacle.step (o.step dt)).inner_radius < 0 := by
          rw [f1, g1, g3]
          nlinarith
        simp only [List.foldl_cons]
        exact ⟨fun _ => this, fun _ => hfin⟩
      · -- the obstacle survives this step
        push_neg at hneg
        have halive1 : (o.step dt).is_alive = true := by
          unfold Obstacle.step Obstacle.update_alive_status
          split
          · exfalso
            have : (o.move_obstacle dt).inner_radius = o.inner_radius - o.speed * dt := by
              simp [Obstacle.move_obstacle]
            simp_all
            linarith
          · simpa [Obstacle.move_obstacle]
        have := ih (o.step dt) hrest (by rw [g3]; exact hspeed) halive1 (by rw [g1]; linarith)
        simpa using this

/-- C3: an Obstacle constructed with speed `s` (and initial inner radius
`R = sqrt(centre_x² + centre_y²)`), driven through a sequence of per-frame
steps (`move_obstacle(dt)` followed by the `update_alive_status` check),
has its inner radius reduced by exactly `s · Σdt` (and the outer radius by
the same amount); its alive flag is false exactly when `R - s·Σdt < 0`;
and once false the flag never becomes true again. -/
theorem obstacle_motion_and_liveness (c : ℝ × ℝ) (sa a s : ℝ) (dts : List ℝ)
    (hdts : ∀ dt ∈ dts, 0 ≤ dt) (hs : 0 ≤ s) :
    (dts.foldl Obstacle.step (Obstacle.init c sa a s)).inner_radius =
        (Obstacle.init c sa a s).inner_radius - s * dts.sum ∧
    (dts.foldl Obstacle.step (Obstacle.init c sa a s)).outer_radius =
        (Obstacle.init c sa a s).outer_radius - s * dts.sum ∧
    ((dts.foldl Obstacle.step (Obstacle.init c sa a s)).is_alive = false ↔
        (Obstacle.init c sa a s).inner_radius - s * dts.sum < 0) ∧
    (∀ (o : Obstacle) (dt : ℝ), o.is_alive = false → (o.step dt).is_alive = false) := by
  have hspeed : (Obstacle.init c sa a s).speed = s := rfl
  rcases foldl_step_fields dts (Obstacle.init c sa a s) with ⟨f1, f2, _⟩
  have halive : (Obstacle.init c sa a s).is_alive = true := rfl
  have hinner : 0 ≤ (Obstacle.init c sa a s).inner_radius := Real.sqrt_nonneg _
  have hiff := foldl_step_alive_iff dts (Obstacle.init c sa a s) hdts
    (by rw [hspeed]; exact hs) halive hinner
  refine ⟨by rw [f1, hspeed], by rw [f2, hspeed], ?_, step_dead_stays_dead⟩
  rw [hiff, f1, hspeed]

/-- Witness for C3: centre `(3,4)` (so `R = 5`), speed `100`, one step of
`dt = 1`; the obstacle's flag is dead, matching `5 - 100 < 0`. -/
theorem obstacle_motion_and_liveness_witness :
    (∀ dt ∈ [(1 : ℝ)], 0 ≤ dt) ∧ (0 : ℝ) ≤ 100 ∧
      (([(1 : ℝ)].foldl Obstacle.step (Obstacle.init (3, 4) 0 90 100)).is_alive = false ↔
        (Obstacle.init (3, 4) 0 90 100).inner_radius - 100 * [(1 : ℝ)].sum < 0) :=
  ⟨by norm_num, by norm_num,
    (obstacle_motion_and_liveness (3, 4) 0 90 100 [1] (by norm_num) (by norm_num)).2.2.1⟩

/-! ## C5: exact reaping of dead obstacles -/

/-- Folding `delete_obstacle` over a list of names only rewrites the
`obstacles` list (by iterated `eraseP`); all other handler fields are kept. -/
theorem foldl_delete_obstacles (names : List ℕ) :
    ∀ h : ObstacleHandler,
      names.foldl (fun acc name => acc.delete_obstacle name) h =
        { h with obstacles :=
            names.foldl (fun l name => l.eraseP (fun e => e.1 == name)) h.obstacles } := by
  induction names with
  | nil => intro h; rfl
  | cons nm rest ih =>
      intro h
      simp only [List.foldl_cons]
      rw [ih]
      rfl

/-- Erasing a batch of keys that all avoid the head entry keeps the head. -/
theorem foldl_eraseP_cons (names : List ℕ) :
    ∀ (a : ℕ × Obstacle) (l : List (ℕ × Obstacle)), a.1 ∉ names →
      names.foldl (fun l name => l.eraseP (fun e => e.1 == name)) (a :: l) =
        a :: names.foldl (fun l name => l.eraseP (fun e => e.1 == name)) l := by
  induction names with
  | nil => intro a l _; rfl
  | cons nm rest ih =>
      intro a l ha
      have h1 : (a.1 == nm) = false := by
        simp only [beq_eq_false_iff_ne, ne_eq]
        intro e
        exact ha (by simp [e])
      have h2 : a.1 ∉ rest := fun hx => ha (by simp [hx])
      simp only [List.foldl_cons]
      rw [List.eraseP_cons_of_neg (by simp [h1]), ih a _ h2]

/-- Popping exactly the keys of the dead entries from an association list
with distinct keys leaves the list of live entries, in order. -/
theorem foldl_eraseP_dead_eq_filter :
    ∀ l : List (ℕ × Obstacle), (l.map Prod.fst).Nodup →
      ((l.filter (fun e => !e.2.is_alive)).map Prod.fst).foldl
          (fun l name => l.eraseP (fun e => e.1 == name)) l =
        l.filter (fun e => e.2.is_alive) := by
  intro l
  induction l with
  | nil => intro _; rfl
  | cons a tl ih =>
      intro hnd
      rw [List.map_cons, List.nodup_cons] at hnd
      obtain ⟨hnotmem, hnd'⟩ := hnd
      by_cases halive : a.2.is_alive
      · have hfilter : (a :: tl).filter (fun e => !e.2.is_alive) =
            tl.filter (fun e => !e.2.is_alive) := by
          simp [List.filter_cons, halive]
        have hsub : a.1 ∉ (tl.filter (fun e => !e.2.is_alive)).map Prod.fst := by
          intro hx
          apply hnotmem
          rw [List.mem_map] at hx ⊢
          obtain ⟨e, he, hfst⟩ := hx
          exact ⟨e, List.mem_of_mem_filter he, hfst⟩
        rw [hfilter, foldl_eraseP_cons _ a tl hsub, ih hnd']
        simp [List.filter_cons, halive]
      · have hfilter : (a :: tl).filter (fun e => !e.2.is_alive) =
            a :: tl.filter (fun e => !e.2.is_alive) := by
          simp [List.filter_cons, halive]
        rw [hfilter, List.map_cons, List.foldl_cons,
          List.eraseP_cons_of_pos (by simp), ih hnd']
        simp [List.filter_cons, halive]

/-- C5: on a handler whose slot map has distinct keys,
`delete_dead_obstacles` removes exactly the dead entries, leaves the live
entries unchanged (in order), and returns true if and only if the number
of dead entries is positive. -/
theorem delete_dead_obstacles_spec (h : ObstacleHandler)
    (hkeys : (h.obstacles.map Prod.fst).Nodup) :
    (h.delete_dead_obstacles).1.obstacles =
        h.obstacles.filter (fun e => e.2.is_alive) ∧
    (h.delete_dead_obstacles).1.obstacles.length +
        h.obstacles.countP (fun e => !e.2.is_alive) = h.obstacles.length ∧
    ((h.delete_dead_obstacles).2 = true ↔
        0 < h.obstacles.countP (fun e => !e.2.is_alive)) := by
  have hobs : (h.delete_dead_obstacles).1.obstacles =
      h.obstacles.filter (fun e => e.2.is_alive) := by
    show ((((h.obstacles.filter (fun e => !e.2.is_alive)).map Prod.fst).foldl
        (fun acc name => acc.delete_obstacle name) h)).obstacles = _
    rw [foldl_delete_obstacles]
    exact foldl_eraseP_dead_eq_filter h.obstacles hkeys
  refine ⟨hobs, ?_, ?_⟩
  · rw [hobs]
    induction h.obstacles with
    | nil => rfl
    | cons a tl ih =>
        by_cases ha : a.2.is_alive <;>
          simp [List.filter_cons, List.countP_cons, ha] <;> omega
  · show (!(((h.obstacles.filter fun e => !e.2.is_alive).map Prod.fst).isEmpty)) = true ↔ _
    simp [List.isEmpty_iff, List.filter_eq_nil_iff, List.countP_pos_iff]

/-- Witness for C5 on a concrete handler with distinct keys. -/
theorem delete_dead_obstacles_spec_witness :
    (handlerC5.obstacles.map Prod.fst).Nodup ∧
      (handlerC5.delete_dead_obstacles).1.obstacles =
        handlerC5.obstacles.filter (fun e => e.2.is_alive) :=
  ⟨by simp [handlerC5], (delete_dead_obstacles_spec handlerC5 (by simp [handlerC5])).1⟩

/-! ## C6: scoring on reaping dead obstacles -/

/-- C6 amended: in a single frame, the score increases by exactly one when
the reap removes at least one dead obstacle, and is unchanged otherwise;
the increment does not depend on how many obstacles were removed. -/
theorem reap_dead_and_score_increment (g : Game) :
    g.reap_dead_and_score.score =
      g.score +
        (if g.obstacle_handler.obstacles.any (fun e => !e.2.is_alive) then 1 else 0) := by
  have hb : (g.obstacle_handler.delete_dead_obstacles).2 =
      g.obstacle_handler.obstacles.any (fun e => !e.2.is_alive) := by
    show (!(((g.obstacle_handler.obstacles.filter
        fun e => !e.2.is_alive).map Prod.fst).isEmpty)) = _
    rcases hany : g.obstacle_handler.obstacles.any (fun e => !e.2.is_alive) with _ | _
    · rw [List.any_eq_false] at hany
      have : g.obstacle_handler.obstacles.filter (fun e => !e.2.is_alive) = [] :=
        List.filter_eq_nil_iff.mpr (by simpa using hany)
      simp [this]
    · rw [List.any_eq_true] at hany
      obtain ⟨a, ha, hdead⟩ := hany
      have : a ∈ g.obstacle_handler.obstacles.filter (fun e => !e.2.is_alive) :=
        List.mem_filter.mpr ⟨ha, hdead⟩
      rcases hf : g.obstacle_handler.obstacles.filter (fun e => !e.2.is_alive) with
        _ | _
      · rw [hf] at this
        simp at this
      · simp [hf]
  show (if (g.obstacle_handler.delete_dead_obstacles).2 then g.score + 1 else g.score) = _
  rw [hb]
  split <;> simp_all

/-- Counterexample for C6: a frame whose reap removes two dead obstacles
increases the score by one, not by two. -/
theorem reap_dead_and_score_counterexample :
    gameC6.reap_dead_and_score.obstacle_handler.obstacles.length + 2 =
        gameC6.obstacle_handler.obstacles.length ∧
      gameC6.reap_dead_and_score.score ≠ gameC6.score + 2 := by
  constructor
  · simp [gameC6, Game.reap_dead_and_score, ObstacleHandler.delete_dead_obstacles,
      ObstacleHandler.delete_obstacle, deadObstacle, List.filter_cons, List.eraseP_cons]
  · simp [gameC6, Game.reap_dead_and_score, ObstacleHandler.delete_dead_obstacles,
      ObstacleHandler.delete_obstacle, deadObstacle, List.filter_cons]

/-! ## C4: post-state of a difficulty change -/

/-- After `change_game_settings`, the player position is the path sample at
index `resolution - 1`: the path regeneration performed last overwrites the
position through its internal `move` calls. -/
theorem change_game_settings_player_position (g : Game) (s : GameSettings)
    (n : ℕ) (hres : g.player.player_path_resolution = n + 1) :
    (g.change_game_settings s).player.player_position =
      (g.change_game_settings s).player.posAt (n : ℝ) := by
  simp only [Game.change_game_settings, Game.restart_game, Player.move,
    Player.generate_player_path, hres]
  rfl

/-- C4 amended: for every difficulty-settings dictionary, after
`change_game_settings` the obstacle slot map is empty with no last-created
marker, the travelled path percentage is `0`, the score is `0`, and the
player path is regenerated from the new parameters; the player position,
however, is the sample at path index `resolution - 1` (the last point
generated while regenerating the path), not the index-0 position. -/
theorem change_game_settings_post_state (g : Game) (s : GameSettings)
    (h : 1 ≤ g.player.player_path_resolution) :
    (g.change_game_settings s).obstacle_handler.obstacles = [] ∧
    (g.change_game_settings s).obstacle_handler.last_created_obstacle = none ∧
    (g.change_game_settings s).path_perc = 0 ∧
    (g.change_game_settings s).score = 0 ∧
    (g.change_game_settings s).player.player_path =
      (List.range (g.change_game_settings s).player.player_path_resolution).map
        (fun i => (g.change_game_settings s).player.posAt (i : ℝ)) ∧
    (g.change_game_settings s).player.player_position =
      (g.change_game_settings s).player.posAt
        (((g.change_game_settings s).player.player_path_resolution - 1 : ℕ) : ℝ) := by
  obtain ⟨n, hres⟩ : ∃ n, g.player.player_path_resolution = n + 1 :=
    ⟨g.player.player_path_resolution - 1, by omega⟩
  have hres2 : (g.change_game_settings s).player.player_path_resolution = n + 1 := by
    simp only [Game.change_game_settings, Game.restart_game, Player.move,
      Player.generate_player_path]
    exact hres
  refine ⟨rfl, rfl, rfl, rfl, ?_, ?_⟩
  · rfl
  · rw [hres2, Nat.add_sub_cancel]
    exact change_game_settings_player_position g s n hres

/-- Witness for C4 (amended) on a concrete game and the easy preset. -/
theorem change_game_settings_post_state_witness :
    1 ≤ gameC4.player.player_path_resolution ∧
      (gameC4.change_game_settings easy_difficulty).obstacle_handler.obstacles = [] :=
  ⟨by norm_num [gameC4, playerC4],
    (change_game_settings_post_state gameC4 easy_difficulty
      (by norm_num [gameC4, playerC4])).1⟩

/-- Counterexample for C4 as stated: after changing `gameC4` (path
resolution 4) to the easy preset (radius 100, no deviation), the player
sits at the sample of path index 3 — the point `(0, -100)` relative to the
centre — which is not the index-0 position `(100, 0)`. -/
theorem change_game_settings_position_counterexample :
    (gameC4.change_game_settings easy_difficulty).player.player_position ≠
      (gameC4.change_game_settings easy_difficulty).player.posAt 0 := by
  have hpos := change_game_settings_player_position gameC4 easy_difficulty 3 rfl
  rw [show ((3 : ℕ) : ℝ) = (3 : ℝ) by norm_num] at hpos
  intro hEq
  have h1 : ((gameC4.change_game_settings easy_difficulty).player.posAt (3 : ℝ)).1 =
      ((gameC4.change_game_settings easy_difficulty).player.posAt 0).1 := by
    rw [← hpos, hEq]
  have hradius : (gameC4.change_game_settings easy_difficulty).player.radius = 100 := rfl
  have hcurve : (gameC4.change_game_settings easy_difficulty).player.curve_nr = 0 := rfl
  have hdev : (gameC4.change_game_settings easy_difficulty).player.path_deviation = 0 := rfl
  have hcent : (gameC4.change_game_settings easy_difficulty).player.centre = (0, 0) := rfl
  have hresolution :
      (gameC4.change_game_settings easy_difficulty).player.player_path_resolution = 4 := rfl
  rw [Player.posAt, Player.posAt] at h1
  simp only [hradius, hcurve, hdev, hcent, hresolution, polar_to_cartesian, pymod,
    Nat.cast_ofNat, zero_mul, Real.sin_zero, mul_zero, add_zero] at h1
  have hf3 : ⌊(3 : ℝ) / 4⌋ = 0 := by
    rw [Int.floor_eq_zero_iff]
    constructor <;> norm_num
  have hf0 : ⌊(0 : ℝ) / 4⌋ = 0 := by norm_num
  rw [hf3, hf0] at h1
  simp only [Int.cast_zero, mul_zero, sub_zero, zero_div, Real.cos_zero, mul_one] at h1
  have hcos : Real.cos (2 * Real.pi * ((3 : ℝ) / 4)) = 0 := by
    have harg : 2 * Real.pi * ((3 : ℝ) / 4) = Real.pi + Real.pi / 2 := by ring
    rw [harg, Real.cos_add, Real.cos_pi, Real.sin_pi, Real.cos_pi_div_two]
    ring
  rw [hcos] at h1
  norm_num at h1

/-! ## C8: sector arc formula -/

/-! ## C7: slot-id assignment -/

/-- A position `i` is collected by the zip-and-filter pass of
`create_available_name` exactly when it is in range and the sorted key list
does not hold `i` at position `i`. -/
theorem mem_unused_iff (l : List ℕ) (n : ℕ) (hlen : l.length = n) (i : ℕ) :
    i ∈ ((l.zip (List.range n)).filter (fun e => e.1 != e.2)).map Prod.snd ↔
      i < n ∧ l[i]? ≠ some i := by
  subst hlen
  constructor
  · intro hmem
    rw [List.mem_map] at hmem
    obtain ⟨p, hp, hsnd⟩ := hmem
    rw [List.mem_filter] at hp
    obtain ⟨hpz, hpne⟩ := hp
    rw [List.mem_iff_getElem] at hpz
    obtain ⟨j, hj, hpj⟩ := hpz
    have hj1 : j < l.length := by
      rw [List.length_zip, List.length_range, Nat.min_self] at hj
      exact hj
    have hj2 : j < (List.range l.length).length := by
      rw [List.length_range]
      exact hj1
    rw [List.getElem_zip, List.getElem_range] at hpj
    have hji : j = i := by rw [← hpj] at hsnd; exact hsnd
    subst hji
    refine ⟨hj1, ?_⟩
    rw [List.getElem?_eq_getElem hj1]
    intro hsome
    have hlv : l[j] = j := Option.some.inj hsome
    rw [← hpj] at hpne
    simp [hlv] at hpne
  · rintro ⟨hi, hne⟩
    have hi1 : i < l.length := hi
    rw [List.getElem?_eq_getElem hi1] at hne
    have hlne : l[i] ≠ i := fun he => hne (by rw [he])
    rw [List.mem_map]
    refine ⟨(l[i], i), ?_, rfl⟩
    rw [List.mem_filter]
    refine ⟨?_, by simpa [bne_iff_ne] using hlne⟩
    rw [List.mem_iff_getElem]
    refine ⟨i, ?_, ?_⟩
    · rw [List.length_zip, List.length_range, Nat.min_self]
      exact hi1
    · rw [List.getElem_zip, List.getElem_range]

/-- In a strictly sorted list of naturals, the entry at position `i` is at
least `i`. -/
theorem sorted_index_le (l : List ℕ) (hs : l.Sorted (· < ·)) :
    ∀ (i : ℕ) (hi : i < l.length), i ≤ l[i] := by
  intro i
  induction i with
  | zero => intro hi; exact Nat.zero_le _
  | succ j ih =>
      intro hi
      have hj : j < l.length := Nat.lt_of_succ_lt hi
      have hmono := (List.pairwise_iff_getElem.mp hs) j (j + 1) hj hi (Nat.lt_succ_self j)
      have := ih hj
      omega

/-- C7: on a handler whose slot map has distinct keys,
`create_available_name` returns the smallest non-negative integer that is
not currently a key: the result is not a key, and every smaller number is.
(On an empty map this forces `0`, on keys `{0,1,3}` it forces `2`, and on
`{0,1,2}` it forces `3`.) -/
theorem create_available_name_spec (h : ObstacleHandler)
    (hkeys : (h.obstacles.map Prod.fst).Nodup) :
    h.create_available_name ∉ h.obstacles.map Prod.fst ∧
      ∀ m : ℕ, m < h.create_available_name → m ∈ h.obstacles.map Prod.fst := by
  set l := List.insertionSort (· ≤ ·) (h.obstacles.map Prod.fst) with hLdef
  have hperm : l.Perm (h.obstacles.map Prod.fst) := List.perm_insertionSort _ _
  have hsorted : l.Sorted (· ≤ ·) := List.sorted_insertionSort _ _
  have hnd : l.Nodup := hperm.nodup_iff.mpr hkeys
  have hstrict : l.Sorted (· < ·) := hsorted.lt_of_le hnd
  have hlen : l.length = h.obstacles.length :=
    hperm.length_eq.trans (List.length_map _ _)
  have hres : h.create_available_name =
      match (((l.zip (List.range h.obstacles.length)).filter
          (fun e => e.1 != e.2)).map Prod.snd).min? with
        | some m => m
        | none => if h.obstacles.isEmpty then 0 else h.obstacles.length := rfl
  rcases hmin : (((l.zip (List.range h.obstacles.length)).filter
      (fun e => e.1 != e.2)).map Prod.snd).min? with _ | i0
  · -- no mismatch: the sorted keys are exactly 0..n-1
    have hempty := List.min?_eq_none_iff.mp hmin
    have hall : ∀ i, i < h.obstacles.length → l[i]? = some i := by
      intro i hi
      by_contra hne
      have hmem := (mem_unused_iff l h.obstacles.length hlen i).mpr ⟨hi, hne⟩
      rw [hempty] at hmem
      exact absurd hmem (List.not_mem_nil i)
    have hval : h.create_available_name =
        if h.obstacles.isEmpty then 0 else h.obstacles.length := by rw [hres, hmin]
    rw [hval]
    by_cases hobs : h.obstacles.isEmpty
    · have hnil : h.obstacles = [] := List.isEmpty_iff.mp hobs
      simp [hnil]
    · rw [if_neg hobs]
      constructor
      · intro hmem
        rw [← hperm.mem_iff] at hmem
        rw [List.mem_iff_getElem] at hmem
        obtain ⟨j, hj, hjv⟩ := hmem
        have hjn : j < h.obstacles.length := by omega
        have := hall j hjn
        rw [List.getElem?_eq_getElem hj] at this
        have : l[j] = j := Option.some.inj this
        omega
      · intro m hm
        have := hall m hm
        have hmem : m ∈ l := List.getElem?_mem this
        rw [hperm.mem_iff] at hmem
        exact hmem
  · -- a mismatch exists; the minimum mismatch position is the answer
    obtain ⟨hi0mem, hi0min⟩ := List.min?_eq_some_iff'.mp hmin
    rw [mem_unused_iff l h.obstacles.length hlen i0] at hi0mem
    obtain ⟨hi0lt, hi0ne⟩ := hi0mem
    have hbelow : ∀ j, j < i0 → l[j]? = some j := by
      intro j hj
      by_contra hne
      have hjm := (mem_unused_iff l h.obstacles.length hlen j).mpr ⟨by omega, hne⟩
      have := hi0min j hjm
      omega
    have hval : h.create_available_name = i0 := by rw [hres, hmin]
    rw [hval]
    have hi0l : i0 < l.length := by omega
    have hle : i0 ≤ l[i0] := sorted_index_le l hstrict i0 hi0l
    have hgt : i0 < l[i0] := by
      rcases Nat.lt_or_ge i0 l[i0] with hlt | hge
      · exact hlt
      · exfalso
        apply hi0ne
        rw [List.getElem?_eq_getElem hi0l]
        have : l[i0] = i0 := by omega
        rw [this]
    constructor
    · intro hmem
      rw [← hperm.mem_iff] at hmem
      rw [List.mem_iff_getElem] at hmem
      obtain ⟨t, ht, htv⟩ := hmem
      rcases lt_trichotomy t i0 with h1 | h2 | h3
      · have := hbelow t h1
        rw [List.getElem?_eq_getElem ht] at this
        have : l[t] = t := Option.some.inj this
        omega
      · subst h2
        rw [htv] at hgt
        exact lt_irrefl _ hgt
      · have hmono := (List.pairwise_iff_getElem.mp hstrict) i0 t hi0l ht h3
        rw [htv] at hmono
        omega
    · intro m hm
      have := hbelow m hm
      have hmem : m ∈ l := List.getElem?_mem this
      rw [hperm.mem_iff] at hmem
      exact hmem

/-- Witness for C7 on a handler with keys `{0, 1, 3}`. -/
theorem create_available_name_spec_witness :
    (handlerC7.obstacles.map Prod.fst).Nodup ∧
      handlerC7.create_available_name ∉ handlerC7.obstacles.map Prod.fst :=
  ⟨by simp [handlerC7],
    (create_available_name_spec handlerC7 (by simp [handlerC7])).1⟩

/-- The 90-degree obstacle has 90 arc sample points. -/
theorem obstWide_angle_trunc : (truncToZero obstWide.angle).toNat = 90 := by
  have h : truncToZero obstWide.angle = 90 := by norm_num [obstWide, truncToZero]
  rw [h]
  rfl

/-- C8 amended: `create_polygon_points(radius)` returns one point per
integer `n` in `[0, int(angle))`, and the point at index `n` is the centre
translated by `(int(radius·cos n°), int(radius·sin n°))` — each coordinate
truncated toward zero by Python's `int()` — rather than the exact
`centre + radius·(cos n°, sin n°)`. -/
theorem create_polygon_points_spec (o : Obstacle) (radius : ℝ) :
    (o.create_polygon_points radius).length = (truncToZero o.angle).toNat ∧
    ∀ n : ℕ, n < (truncToZero o.angle).toNat →
      (o.create_polygon_points radius)[n]? =
        some (o.centre.1 + ((truncToZero (radius * Real.cos (n * Real.pi / 180)) : ℤ) : ℝ),
              o.centre.2 + ((truncToZero (radius * Real.sin (n * Real.pi / 180)) : ℤ) : ℝ)) := by
  constructor
  · unfold Obstacle.create_polygon_points
    rw [List.length_map, List.length_range]
  · intro n hn
    unfold Obstacle.create_polygon_points
    rw [List.getElem?_map, List.getElem?_range hn, Option.map_some']

/-- Witness for C8 (amended) at a concrete obstacle and index. -/
theorem create_polygon_points_spec_witness :
    0 < (truncToZero obstWide.angle).toNat ∧
      (obstWide.create_polygon_points 5)[0]? =
        some (obstWide.centre.1 +
                ((truncToZero (5 * Real.cos ((0 : ℕ) * Real.pi / 180)) : ℤ) : ℝ),
              obstWide.centre.2 +
                ((truncToZero (5 * Real.sin ((0 : ℕ) * Real.pi / 180)) : ℤ) : ℝ)) := by
  refine ⟨?_, (create_polygon_points_spec obstWide 5).2 0 ?_⟩ <;>
    rw [obstWide_angle_trunc] <;> norm_num

/-- Counterexample for C8 as stated: with radius 5, the arc point of
`obstWide` at degree 60 is the truncated `(int(5·cos 60°), int(5·sin 60°)) = (2, 4)`,
not the exact `centre + 5·(cos 60°, sin 60°)` whose first coordinate is `5/2`. -/
theorem create_polygon_points_counterexample :
    (obstWide.create_polygon_points 5)[60]? ≠
      some (obstWide.centre.1 + 5 * Real.cos ((60 : ℕ) * Real.pi / 180),
            obstWide.centre.2 + 5 * Real.sin ((60 : ℕ) * Real.pi / 180)) := by
  have harg : ((60 : ℕ) : ℝ) * Real.pi / 180 = Real.pi / 3 := by
    push_cast
    ring
  have hcos : Real.cos (((60 : ℕ) : ℝ) * Real.pi / 180) = 1 / 2 := by
    rw [harg, Real.cos_pi_div_three]
  have htr : truncToZero (5 * Real.cos (((60 : ℕ) : ℝ) * Real.pi / 180)) = 2 := by
    rw [hcos]
    norm_num [truncToZero]
  have hL : (obstWide.create_polygon_points 5)[60]? =
      some (obstWide.centre.1 +
              ((truncToZero (5 * Real.cos (((60 : ℕ) : ℝ) * Real.pi / 180)) : ℤ) : ℝ),
            obstWide.centre.2 +
              ((truncToZero (5 * Real.sin (((60 : ℕ) : ℝ) * Real.pi / 180)) : ℤ) : ℝ)) := by
    unfold Obstacle.create_polygon_points
    rw [obstWide_angle_trunc, List.getElem?_map, List.getElem?_range (by norm_num),
      Option.map_some']
  intro h
  rw [hL] at h
  have hpair := Option.some.inj h
  have hfst := congrArg Prod.fst hpair
  rw [htr] at hfst
  simp only [obstWide, hcos] at hfst
  norm_num at hfst

/-! ## C9: totality of the ring-sector polygon -/

/-- C9 amended: for every Obstacle whose sector angle is at least one
degree (zero radii included), `create_sector_of_the_ring_points` produces a
polygon; for a sector angle below one degree the outer arc is empty and the
`outer_points[0]` indexing fails instead of producing a degenerate polygon. -/
theorem create_sector_of_the_ring_points_total (o : Obstacle) (h : 1 ≤ o.angle) :
    (o.create_sector_of_the_ring_points).isSome = true := by
  have h0 : (0 : ℝ) ≤ o.angle := le_trans zero_le_one h
  have hfl : 1 ≤ ⌊o.angle⌋ := by
    rw [Int.le_floor]
    exact_mod_cast h
  have htr : 1 ≤ (truncToZero o.angle).toNat := by
    unfold truncToZero
    rw [if_pos h0]
    omega
  have hlen : (o.create_polygon_points o.outer_radius).length =
      (truncToZero o.angle).toNat := by
    unfold Obstacle.create_polygon_points
    rw [List.length_map, List.length_range]
  have hne : o.create_polygon_points o.outer_radius ≠ [] := by
    intro he
    rw [he] at hlen
    simp at hlen
    omega
  rcases hh : (o.create_polygon_points o.outer_radius).head? with _ | p0
  · exact absurd (List.head?_eq_none_iff.mp hh) hne
  · simp only [Obstacle.create_sector_of_the_ring_points]
    rw [hh]
    rfl

/-- Witness for C9 (amended) at a concrete obstacle. -/
theorem create_sector_of_the_ring_points_total_witness :
    1 ≤ obstWide.angle ∧ (obstWide.create_sector_of_the_ring_points).isSome = true :=
  ⟨by norm_num [obstWide],
    create_sector_of_the_ring_points_total obstWide (by norm_num [obstWide])⟩

/-- Counterexample for C9 as stated: an obstacle with a half-degree sector
makes `create_sector_of_the_ring_points` fail (the `outer_points[0]`
indexing of the empty outer arc raises), rather than produce a degenerate
polygon. -/
theorem create_sector_of_the_ring_points_counterexample :
    obstTiny.create_sector_of_the_ring_points = none := by
  have h0 : (truncToZero obstTiny.angle).toNat = 0 := by
    norm_num [obstTiny, truncToZero]
  unfold Obstacle.create_sector_of_the_ring_points
  have hempty : obstTiny.create_polygon_points obstTiny.outer_radius = [] := by
    simp [Obstacle.create_polygon_points, h0]
  rw [hempty]
  rfl

/-- Witness for C2 at a concrete player and input. -/
theorem player_move_periodic_witness :
    0 < witnessPlayer.player_path_resolution ∧
      (witnessPlayer.move (3 + (witnessPlayer.player_path_resolution : ℝ))).player_position =
        (witnessPlayer.move 3).player_position :=
  ⟨by decide, player_move_periodic witnessPlayer 3 (by decide)⟩

end
